import Mathlib

/-
Verification development for the Monkey-language front end
(lexer `lexer/lexer.go`, token table `token/token.go`, AST and
pretty-printer `ast/ast.go`, Pratt parser `parser/parser.go`).

The Go code is shallowly embedded: structs become structures, methods
become functions threading their receiver's state, `nil` interface
values for expressions become the `Expr.missing` sentinel, `nil`
statements become `Option.none`, and Go loops become fuel-indexed
structural recursions (the fuel cases at 0 are unreachable for the
fuel budgets used in the theorems).
-/

namespace Monkey

/-! ### token/token.go -/

/-- TokenType in the source is a plain string; the constants below are the
members of the closed enumeration in `token/token.go`. -/
abbrev TokenType := String

namespace Tok

def ILLEGAL : TokenType := "ILLEGAL"
def EOF : TokenType := "EOF"
def IDENT : TokenType := "IDENT"
def INT : TokenType := "INT"
def ASSIGN : TokenType := "="
def PLUS : TokenType := "+"
def MINUS : TokenType := "-"
def BANG : TokenType := "!"
def ASTERISK : TokenType := "*"
def SLASH : TokenType := "/"
def LT : TokenType := "<"
def GT : TokenType := ">"
def EQ : TokenType := "=="
def NOT_EQ : TokenType := "!="
def COMMA : TokenType := ","
def SEMICOLON : TokenType := ";"
def LPAREN : TokenType := "("
def RPAREN : TokenType := ")"
def LBRACE : TokenType := "\x7b"
def RBRACE : TokenType := "\x7d"
def FUNCTION : TokenType := "FUNCTION"
def LET : TokenType := "LET"
def TRUE : TokenType := "TRUE"
def FALSE : TokenType := "FALSE"
def IF : TokenType := "IF"
def ELSE : TokenType := "ELSE"
def RETURN : TokenType := "RETURN"
def STRING : TokenType := "STRING"

/-- Modelled from the spec: the delimiter token types `[`, `]`, `:` are used
by `parser/parser.go` (registration of array/index/hash parse functions) but
their constant declarations are missing from `token/token.go` in src; the
spec's TokenType table lists them among the delimiters with their printable
form being the tag itself. -/
def LBRACKET : TokenType := "["

/-- Modelled from the spec: see `LBRACKET`. -/
def RBRACKET : TokenType := "]"

/-- Modelled from the spec: see `LBRACKET`. -/
def COLON : TokenType := ":"

end Tok

/-- Token record (`token.Token`): a type tag and the literal lexeme. -/
structure Token where
  type : TokenType
  literal : String
  deriving Repr, DecidableEq

/-- The keyword table `keywords` of `token/token.go`. -/
def keywordLookup (s : String) : Option TokenType :=
  if s = "fn" then some Tok.FUNCTION
  else if s = "let" then some Tok.LET
  else if s = "true" then some Tok.TRUE
  else if s = "false" then some Tok.FALSE
  else if s = "if" then some Tok.IF
  else if s = "else" then some Tok.ELSE
  else if s = "return" then some Tok.RETURN
  else none

/-- `token.LookupIdent`: keyword type when the word is a keyword, IDENT
otherwise.  (Present in `token/token.go`; the lexer in src never calls it.) -/
def lookupIdent (s : String) : TokenType :=
  match keywordLookup s with
  | some t => t
  | none => Tok.IDENT

/-! ### lexer/lexer.go -/

/-- The NUL byte that `readChar` stores in `ch` at end of input. -/
def chr0 : Char := Char.ofNat 0

/-- Lexer state (`lexer.Lexer`): the input (a byte/char sequence), the index
of the current char, the index of the next char, and the current char. -/
structure Lexer where
  input : List Char
  position : Nat
  readPosition : Nat
  ch : Char
  deriving Repr

/-- `Lexer.readChar`: load the char at `readPosition` (NUL past the end),
move `position` up to `readPosition`, and advance `readPosition`. -/
def readChar (l : Lexer) : Lexer :=
  { l with
    ch := if l.input.length ≤ l.readPosition then chr0 else l.input.getD l.readPosition chr0
    position := l.readPosition
    readPosition := l.readPosition + 1 }

/-- `lexer.New`: prime the state with one `readChar`. -/
def lexNew (input : List Char) : Lexer :=
  readChar { input := input, position := 0, readPosition := 0, ch := chr0 }

/-- `isLetter`: ASCII letters and underscore. -/
def isLetter (c : Char) : Bool :=
  ('a' ≤ c && c ≤ 'z') || ('A' ≤ c && c ≤ 'Z') || c = '_'

/-- The `for isLetter(l.ch) { l.readChar() }` loop of `readIdentifier`,
indexed by fuel; `readIdentifier` always supplies enough fuel for the loop
to run to completion (lemma `readIdentLoop_completes`). -/
def readIdentLoop : Nat → Lexer → Lexer
  | 0, l => l
  | fuel + 1, l => if isLetter l.ch then readIdentLoop fuel (readChar l) else l

/-- `Lexer.readIdentifier`: remember the start position, run the letter
loop, and return the slice `input[start:position]` with the final state. -/
def readIdentifier (l : Lexer) : String × Lexer :=
  let l' := readIdentLoop (l.input.length + 1 - l.position) l
  (String.mk ((l.input.drop l.position).take (l'.position - l.position)), l')

/-- Build a single-char token (`newToken`). -/
def newToken (t : TokenType) (c : Char) : Token := ⟨t, String.mk [c]⟩

/-- The EOF token the lexer yields once input is exhausted. -/
def eofTok : Token := ⟨Tok.EOF, ""⟩

/-- `Lexer.NextToken` exactly as in `lexer/lexer.go` in src: the switch
handles only `=`, `;`, `(`, `)`, `,`, `+`, the two braces and NUL; the
default branch reads an identifier run (note: the source never assigns the
token's Type in that branch, so it stays the zero value `""`) or yields
ILLEGAL.  There is no whitespace skipping, no digit/string/bracket/colon
handling and no two-char lookahead in this file. -/
def lexNextToken (l : Lexer) : Token × Lexer :=
  if l.ch = '=' then (newToken Tok.ASSIGN l.ch, readChar l)
  else if l.ch = ';' then (newToken Tok.SEMICOLON l.ch, readChar l)
  else if l.ch = '(' then (newToken Tok.LPAREN l.ch, readChar l)
  else if l.ch = ')' then (newToken Tok.RPAREN l.ch, readChar l)
  else if l.ch = ',' then (newToken Tok.COMMA l.ch, readChar l)
  else if l.ch = '+' then (newToken Tok.PLUS l.ch, readChar l)
  else if l.ch = Char.ofNat 123 then (newToken Tok.LBRACE l.ch, readChar l)
  else if l.ch = Char.ofNat 125 then (newToken Tok.RBRACE l.ch, readChar l)
  else if l.ch = chr0 then (eofTok, readChar l)
  else if isLetter l.ch then
    ((⟨"", (readIdentifier l).1⟩ : Token), (readIdentifier l).2)
  else (newToken Tok.ILLEGAL l.ch, readChar l)

/-- Collect the tokens of an input up to (excluding) the first EOF.  Each
non-EOF token advances the position by at least one, so `length + 1` calls
always reach EOF; the parser model treats tokens past this list as EOF,
matching the lexer's behaviour of yielding EOF forever. -/
def lexAllLoop : Nat → Lexer → List Token
  | 0, _ => []
  | fuel + 1, l =>
    let (t, l') := lexNextToken l
    if t.type = Tok.EOF then [] else t :: lexAllLoop fuel l'

/-- All tokens of a source text, in order, EOF excluded. -/
def lexAll (s : List Char) : List Token := lexAllLoop (s.length + 1) (lexNew s)

/-- The k-th token produced from a lexer state (0-based). -/
def tokenAt : Lexer → Nat → Token
  | l, 0 => (lexNextToken l).1
  | l, k + 1 => tokenAt (lexNextToken l).2 k

/-! ### ast/ast.go : node types

Go's `nil` Expression interface value (the parser's missing sentinel) is the
constructor `Expr.missing`.  Slices that the parser can leave `nil` (function
parameters, call arguments, array elements) are `Option (List _)` so that a
`nil` slice stays distinguishable from an empty one.  `HashLiteral.Pairs` is
a Go map keyed by freshly allocated nodes, so insertions never collide; it is
modelled as the insertion-ordered association list the parser builds, and
theorems about its (unspecified) iteration order quantify over permutations. -/

/-- `ast.Identifier` (used as `LetStatement.Name` and in parameter lists). -/
structure Ident where
  tok : Token
  value : String
  deriving Repr, DecidableEq

mutual

inductive Expr where
  | missing
  | identE (tok : Token) (value : String)
  | intLit (tok : Token) (value : Int)
  | preE (tok : Token) (operator : String) (right : Expr)
  | infE (tok : Token) (left : Expr) (operator : String) (right : Expr)
  | boolE (tok : Token) (value : Bool)
  | ifE (tok : Token) (condition : Expr) (consequence : Block) (alternative : Option Block)
  | funcLit (tok : Token) (params : Option (List Ident)) (body : Block)
  | callE (tok : Token) (function : Expr) (args : Option (List Expr))
  | strLit (tok : Token) (value : String)
  | arrLit (tok : Token) (elements : Option (List Expr))
  | idxE (tok : Token) (left : Expr) (index : Expr)
  | hashLit (tok : Token) (pairs : List (Expr × Expr))
  deriving Repr

inductive Block where
  | mk (tok : Token) (statements : List Stmt)
  deriving Repr

inductive Stmt where
  | letS (tok : Token) (name : Ident) (value : Expr)
  | retS (tok : Token) (value : Expr)
  | exprS (tok : Token) (expression : Expr)
  deriving Repr

end

/-! ### ast/ast.go : String() methods (the pretty-printer)

Faithful to the source, including its quirk: `HashLiteral.String` writes the
opening brace and the joined pairs but never writes a closing brace. -/

/-- `FunctionLiteral.String`'s parameter renderings: each `Identifier.String`
is its `Value`; a `nil` parameter slice contributes nothing. -/
def identListStrings (ps : Option (List Ident)) : List String :=
  (ps.getD []).map (fun i => i.value)

mutual

/-- Rendering of an expression slot; Go renders a `nil` slot as nothing
(either via an explicit nil check or by never reaching it). -/
def exprString : Expr → String
  | .missing => ""
  | .identE _ v => v
  | .intLit t _ => t.literal
  | .preE _ op r => "(" ++ op ++ exprString r ++ ")"
  | .infE _ l op r => "(" ++ exprString l ++ " " ++ op ++ " " ++ exprString r ++ ")"
  | .boolE t _ => t.literal
  | .ifE _ c cons alt =>
    "if" ++ exprString c ++ " " ++ blockString cons ++
      (match alt with
       | some a => "else" ++ blockString a
       | none => "")
  | .funcLit t ps body =>
    t.literal ++ "(" ++ String.intercalate ", " (identListStrings ps) ++ ") " ++
      blockString body
  | .callE _ f args =>
    exprString f ++ "(" ++ String.intercalate ", " (exprListOptStrings args) ++ ")"
  | .strLit t _ => t.literal
  | .arrLit _ els => "[" ++ String.intercalate ", " (exprListOptStrings els) ++ "]"
  | .idxE _ l i => "(" ++ exprString l ++ "[" ++ exprString i ++ "])"
  | .hashLit _ ps => "\x7b" ++ String.intercalate ", " (pairStrings ps)

def exprListOptStrings : Option (List Expr) → List String
  | none => []
  | some es => exprListStrings es

def exprListStrings : List Expr → List String
  | [] => []
  | e :: es => exprString e :: exprListStrings es

def pairStrings : List (Expr × Expr) → List String
  | [] => []
  | (k, v) :: ps => (exprString k ++ ":" ++ exprString v) :: pairStrings ps

def blockString : Block → String
  | .mk _ stmts => String.join (stmtListStrings stmts)

def stmtString : Stmt → String
  | .letS t name v =>
    t.literal ++ " " ++ name.value ++ " = " ++
      (match v with
       | .missing => ""
       | e => exprString e) ++ ";"
  | .retS t v =>
    t.literal ++ " " ++
      (match v with
       | .missing => ""
       | e => exprString e) ++ ";"
  | .exprS _ e => exprString e

def stmtListStrings : List Stmt → List String
  | [] => []
  | s :: ss => stmtString s :: stmtListStrings ss

end

/-- `Program.String`: concatenation of the statements' renderings. -/
def programString (stmts : List Stmt) : String :=
  String.join (stmtListStrings stmts)

/-! ### parser/parser.go

The parser's only interaction with the lexer is the sequence of `NextToken`
calls, so the state carries the pending tokens as a list, with EOF tokens
supplied forever once the list is exhausted (exactly what the lexer does
past the end of input).  Go's mutable `*Parser` receiver becomes explicit
state threading; loops and the mutually recursive parse functions take a
fuel argument (first position) and every recursive call strictly decreases
it, keeping the recursion structural; the fuel-0 fallbacks are never reached
at the budgets used below. -/

structure PState where
  curToken : Token
  peekToken : Token
  rest : List Token
  errors : List String
  deriving Repr

/-- `Parser.nextToken`: shift peek into cur and pull the next token. -/
def pnext (st : PState) : PState :=
  { curToken := st.peekToken, peekToken := st.rest.headD eofTok,
    rest := st.rest.tail, errors := st.errors }

/-- The text of `peekError`'s message. -/
def peekErrMsg (t : TokenType) (got : TokenType) : String :=
  "expected next token to be " ++ t ++ ", got " ++ got ++ " instead"

/-- `Parser.peekError`: append one mismatch message. -/
def peekError (st : PState) (t : TokenType) : PState :=
  { st with errors := st.errors ++ [peekErrMsg t st.peekToken.type] }

/-- `Parser.expectPeek`: advance on a match, record one error otherwise. -/
def expectPeek (st : PState) (t : TokenType) : Bool × PState :=
  if st.peekToken.type = t then (true, pnext st) else (false, peekError st t)

/-- `Parser.noPrefixParseFnError`. -/
def noPrefixFnErr (st : PState) (t : TokenType) : PState :=
  { st with errors := st.errors ++ ["no prefix parse functions for " ++ t ++ " found"] }

namespace Prec

def LOWEST : Nat := 1
def EQUALS : Nat := 2
def LESSGREATER : Nat := 3
def SUM : Nat := 4
def PRODUCT : Nat := 5
/-- Go's `PREFIX` precedence constant (unary `-X` / `!X`). -/
def PREFIXOP : Nat := 6
def CALL : Nat := 7
def INDEX : Nat := 8

end Prec

/-- The `precedences` map. -/
def precedenceOf (t : TokenType) : Option Nat :=
  if t = Tok.EQ then some Prec.EQUALS
  else if t = Tok.NOT_EQ then some Prec.EQUALS
  else if t = Tok.LT then some Prec.LESSGREATER
  else if t = Tok.GT then some Prec.LESSGREATER
  else if t = Tok.PLUS then some Prec.SUM
  else if t = Tok.MINUS then some Prec.SUM
  else if t = Tok.SLASH then some Prec.PRODUCT
  else if t = Tok.ASTERISK then some Prec.PRODUCT
  else if t = Tok.LPAREN then some Prec.CALL
  else if t = Tok.LBRACKET then some Prec.INDEX
  else none

/-- `Parser.peekPrecedence` (LOWEST when the type is absent from the map). -/
def peekPrecedence (st : PState) : Nat := (precedenceOf st.peekToken.type).getD Prec.LOWEST

/-- `Parser.curPrecedence`. -/
def curPrecedence (st : PState) : Nat := (precedenceOf st.curToken.type).getD Prec.LOWEST

/-- The domain of `prefixParseFns` as registered in `New`. -/
def hasPrefixFn (t : TokenType) : Bool :=
  t = Tok.IDENT || t = Tok.INT || t = Tok.BANG || t = Tok.MINUS ||
  t = Tok.TRUE || t = Tok.FALSE || t = Tok.LPAREN || t = Tok.IF ||
  t = Tok.FUNCTION || t = Tok.STRING || t = Tok.LBRACKET || t = Tok.LBRACE

/-- The domain of `infixParseFns` as registered in `New`. -/
def hasInfixFn (t : TokenType) : Bool :=
  t = Tok.PLUS || t = Tok.MINUS || t = Tok.SLASH || t = Tok.ASTERISK ||
  t = Tok.EQ || t = Tok.NOT_EQ || t = Tok.LT || t = Tok.GT ||
  t = Tok.LPAREN || t = Tok.LBRACKET

/-- Models `strconv.ParseInt(s, 0, 64)` on the decimal digit runs that reach
`parseIntegerLiteral` through INT tokens (no sign, no base prefix, no
underscores -- none of which an INT digit-run literal of this language's
lexing rules can carry, barring a redundant leading zero); rejects the empty
string, non-digits and values beyond the int64 range. -/
def parseInt64 (s : String) : Option Int :=
  let rec digits : List Char → Option Nat
    | [] => some 0
    | c :: cs =>
      if '0' ≤ c && c ≤ '9' then
        (digits cs).map (fun n => n * 10 + (c.toNat - 48))
      else none
  match s.data with
  | [] => none
  | cs =>
    -- accumulate most-significant first
    let rec go : List Char → Nat → Option Nat
      | [], acc => some acc
      | c :: cs, acc =>
        if '0' ≤ c && c ≤ '9' then go cs (acc * 10 + (c.toNat - 48)) else none
    match go cs 0 with
    | some n => if n ≤ 9223372036854775807 then some (Int.ofNat n) else none
    | none => none

/-- `Parser.parseIntegerLiteral` (no token movement; error on conversion
failure). -/
def parseIntegerLiteral (st : PState) : Expr × PState :=
  match parseInt64 st.curToken.literal with
  | some v => (.intLit st.curToken v, st)
  | none =>
    (.missing,
      { st with errors :=
          st.errors ++ ["could not parse \"" ++ st.curToken.literal ++ "\" as integer"] })

/-- The `for p.peekTokenIs(token.COMMA)` loop of `parseFunctionParameters`
(self-recursive only, so it lives outside the mutual block). -/
def parseParamsLoop : Nat → PState → List Ident × PState
  | 0, st => ([], st)
  | fuel + 1, st =>
    if st.peekToken.type = Tok.COMMA then
      let st1 := pnext (pnext st)
      let i : Ident := ⟨st1.curToken, st1.curToken.literal⟩
      let (is, st2) := parseParamsLoop fuel st1
      (i :: is, st2)
    else ([], st)

/-- `Parser.parseFunctionParameters`; `none` is Go's `nil` slice returned
when the closing parenthesis is missing. -/
def parseFunctionParameters : Nat → PState → Option (List Ident) × PState
  | 0, st => (none, st)
  | fuel + 1, st =>
    if st.peekToken.type = Tok.RPAREN then (some [], pnext st)
    else
      let st1 := pnext st
      let i1 : Ident := ⟨st1.curToken, st1.curToken.literal⟩
      let (is, st2) := parseParamsLoop fuel st1
      match expectPeek st2 Tok.RPAREN with
      | (false, st3) => (none, st3)
      | (true, st3) => (some (i1 :: is), st3)

mutual

/-- `Parser.parseStatement`: dispatch on the current token's type. -/
def parseStatement : Nat → PState → Option Stmt × PState
  | 0, st => (none, st)
  | fuel + 1, st =>
    if st.curToken.type = Tok.LET then parseLetStatement fuel st
    else if st.curToken.type = Tok.RETURN then parseReturnStatement fuel st
    else parseExpressionStatement fuel st

/-- `Parser.parseLetStatement`: LET token, expect IDENT, expect `=`, value
expression, optional semicolon; `none` on either failed expectation. -/
def parseLetStatement : Nat → PState → Option Stmt × PState
  | 0, st => (none, st)
  | fuel + 1, st =>
    let tok := st.curToken
    match expectPeek st Tok.IDENT with
    | (false, st1) => (none, st1)
    | (true, st1) =>
      let name : Ident := ⟨st1.curToken, st1.curToken.literal⟩
      match expectPeek st1 Tok.ASSIGN with
      | (false, st2) => (none, st2)
      | (true, st2) =>
        let st3 := pnext st2
        let (v, st4) := parseExpression fuel st3 Prec.LOWEST
        let st5 := if st4.peekToken.type = Tok.SEMICOLON then pnext st4 else st4
        (some (.letS tok name v), st5)

/-- `Parser.parseReturnStatement`. -/
def parseReturnStatement : Nat → PState → Option Stmt × PState
  | 0, st => (none, st)
  | fuel + 1, st =>
    let tok := st.curToken
    let st1 := pnext st
    let (v, st2) := parseExpression fuel st1 Prec.LOWEST
    let st3 := if st2.peekToken.type = Tok.SEMICOLON then pnext st2 else st2
    (some (.retS tok v), st3)

/-- `Parser.parseExpressionStatement`: always yields a statement node; a
failed expression sub-parse leaves the missing sentinel in its slot. -/
def parseExpressionStatement : Nat → PState → Option Stmt × PState
  | 0, st => (none, st)
  | fuel + 1, st =>
    let tok := st.curToken
    let (e, st1) := parseExpression fuel st Prec.LOWEST
    let st2 := if st1.peekToken.type = Tok.SEMICOLON then pnext st1 else st1
    (some (.exprS tok e), st2)

/-- `Parser.parseExpression`: the Pratt core. -/
def parseExpression : Nat → PState → Nat → Expr × PState
  | 0, st, _ => (.missing, st)
  | fuel + 1, st, prec =>
    if hasPrefixFn st.curToken.type then
      let (left, st1) := callPrefixFn fuel st
      parseInfixLoop fuel st1 left prec
    else (.missing, noPrefixFnErr st st.curToken.type)

/-- The `for !p.peekTokenIs(SEMICOLON) && precedence < p.peekPrecedence()`
loop of `parseExpression`. -/
def parseInfixLoop : Nat → PState → Expr → Nat → Expr × PState
  | 0, st, left, _ => (left, st)
  | fuel + 1, st, left, prec =>
    if st.peekToken.type ≠ Tok.SEMICOLON ∧ prec < peekPrecedence st then
      if hasInfixFn st.peekToken.type then
        let st1 := pnext st
        let (left', st2) := callInfixFn fuel st1 left
        parseInfixLoop fuel st2 left' prec
      else (left, st)
    else (left, st)

/-- Dispatch through `prefixParseFns` (the map is fixed after `New`, so the
lookup is a case split on the current token type). -/
def callPrefixFn : Nat → PState → Expr × PState
  | 0, st => (.missing, st)
  | fuel + 1, st =>
    let t := st.curToken.type
    if t = Tok.IDENT then (.identE st.curToken st.curToken.literal, st)
    else if t = Tok.INT then parseIntegerLiteral st
    else if t = Tok.BANG || t = Tok.MINUS then parsePrefixExpression fuel st
    else if t = Tok.TRUE || t = Tok.FALSE then
      (.boolE st.curToken (st.curToken.type == Tok.TRUE), st)
    else if t = Tok.LPAREN then parseGroupedExpression fuel st
    else if t = Tok.IF then parseIfExpression fuel st
    else if t = Tok.FUNCTION then parseFunctionLiteral fuel st
    else if t = Tok.STRING then (.strLit st.curToken st.curToken.literal, st)
    else if t = Tok.LBRACKET then parseArrayLiteral fuel st
    else if t = Tok.LBRACE then parseHashLiteral fuel st
    else (.missing, st)

/-- Dispatch through `infixParseFns` (called with cur at the operator, after
the loop advanced one token). -/
def callInfixFn : Nat → PState → Expr → Expr × PState
  | 0, st, _ => (.missing, st)
  | fuel + 1, st, left =>
    let t := st.curToken.type
    if t = Tok.LPAREN then parseCallExpression fuel st left
    else if t = Tok.LBRACKET then parseIndexExpression fuel st left
    else parseInfixExpression fuel st left

/-- `Parser.parsePrefixExpression`: right operand parsed at PREFIX. -/
def parsePrefixExpression : Nat → PState → Expr × PState
  | 0, st => (.missing, st)
  | fuel + 1, st =>
    let tok := st.curToken
    let op := st.curToken.literal
    let st1 := pnext st
    let (r, st2) := parseExpression fuel st1 Prec.PREFIXOP
    (.preE tok op r, st2)

/-- `Parser.parseInfixExpression`: right operand parsed at the operator's
own precedence (this is what makes the binary operators left-associative). -/
def parseInfixExpression : Nat → PState → Expr → Expr × PState
  | 0, st, _ => (.missing, st)
  | fuel + 1, st, left =>
    let tok := st.curToken
    let op := st.curToken.literal
    let prec := curPrecedence st
    let st1 := pnext st
    let (r, st2) := parseExpression fuel st1 prec
    (.infE tok left op r, st2)

/-- `Parser.parseGroupedExpression`. -/
def parseGroupedExpression : Nat → PState → Expr × PState
  | 0, st => (.missing, st)
  | fuel + 1, st =>
    let st1 := pnext st
    let (e, st2) := parseExpression fuel st1 Prec.LOWEST
    match expectPeek st2 Tok.RPAREN with
    | (false, st3) => (.missing, st3)
    | (true, st3) => (e, st3)

/-- `Parser.parseIfExpression`. -/
def parseIfExpression : Nat → PState → Expr × PState
  | 0, st => (.missing, st)
  | fuel + 1, st =>
    let tok := st.curToken
    match expectPeek st Tok.LPAREN with
    | (false, st1) => (.missing, st1)
    | (true, st1) =>
      let st2 := pnext st1
      let (cond, st3) := parseExpression fuel st2 Prec.LOWEST
      match expectPeek st3 Tok.RPAREN with
      | (false, st4) => (.missing, st4)
      | (true, st4) =>
        match expectPeek st4 Tok.LBRACE with
        | (false, st5) => (.missing, st5)
        | (true, st5) =>
          let (cons, st6) := parseBlockStatement fuel st5
          if st6.peekToken.type = Tok.ELSE then
            let st7 := pnext st6
            match expectPeek st7 Tok.LBRACE with
            | (false, st8) => (.missing, st8)
            | (true, st8) =>
              let (alt, st9) := parseBlockStatement fuel st8
              (.ifE tok cond cons (some alt), st9)
          else (.ifE tok cond cons none, st6)

/-- `Parser.parseBlockStatement` header: keep the `{` token, advance, run
the statement loop. -/
def parseBlockStatement : Nat → PState → Block × PState
  | 0, st => (.mk st.curToken [], st)
  | fuel + 1, st =>
    let tok := st.curToken
    let st1 := pnext st
    let (ss, st2) := parseBlockLoop fuel st1
    (.mk tok ss, st2)

/-- The `for !curTokenIs(RBRACE) && !curTokenIs(EOF)` loop of
`parseBlockStatement`; like the top-level loop it keeps only non-nil
statements. -/
def parseBlockLoop : Nat → PState → List Stmt × PState
  | 0, st => ([], st)
  | fuel + 1, st =>
    if st.curToken.type ≠ Tok.RBRACE ∧ st.curToken.type ≠ Tok.EOF then
      let (so, st1) := parseStatement fuel st
      let (ss, st2) := parseBlockLoop fuel (pnext st1)
      ((match so with | some s => s :: ss | none => ss), st2)
    else ([], st)

/-- `Parser.parseFunctionLiteral`. -/
def parseFunctionLiteral : Nat → PState → Expr × PState
  | 0, st => (.missing, st)
  | fuel + 1, st =>
    let tok := st.curToken
    match expectPeek st Tok.LPAREN with
    | (false, st1) => (.missing, st1)
    | (true, st1) =>
      let (ps, st2) := parseFunctionParameters fuel st1
      match expectPeek st2 Tok.LBRACE with
      | (false, st3) => (.missing, st3)
      | (true, st3) =>
        let (body, st4) := parseBlockStatement fuel st3
        (.funcLit tok ps body, st4)

/-- `Parser.parseCallExpression`. -/
def parseCallExpression : Nat → PState → Expr → Expr × PState
  | 0, st, _ => (.missing, st)
  | fuel + 1, st, function =>
    let tok := st.curToken
    let (args, st1) := parseExpressionList fuel st Tok.RPAREN
    (.callE tok function args, st1)

/-- `Parser.parseExpressionList` (shared by call arguments and array
elements); `none` is Go's `nil` slice on a missing end token. -/
def parseExpressionList : Nat → PState → TokenType → Option (List Expr) × PState
  | 0, st, _ => (none, st)
  | fuel + 1, st, endT =>
    if st.peekToken.type = endT then (some [], pnext st)
    else
      let st1 := pnext st
      let (e1, st2) := parseExpression fuel st1 Prec.LOWEST
      let (es, st3) := parseExprListLoop fuel st2
      match expectPeek st3 endT with
      | (false, st4) => (none, st4)
      | (true, st4) => (some (e1 :: es), st4)

/-- The `for p.peekTokenIs(token.COMMA)` loop of `parseExpressionList`. -/
def parseExprListLoop : Nat → PState → List Expr × PState
  | 0, st => ([], st)
  | fuel + 1, st =>
    if st.peekToken.type = Tok.COMMA then
      let st1 := pnext (pnext st)
      let (e, st2) := parseExpression fuel st1 Prec.LOWEST
      let (es, st3) := parseExprListLoop fuel st2
      (e :: es, st3)
    else ([], st)

/-- `Parser.parseArrayLiteral`. -/
def parseArrayLiteral : Nat → PState → Expr × PState
  | 0, st => (.missing, st)
  | fuel + 1, st =>
    let tok := st.curToken
    let (els, st1) := parseExpressionList fuel st Tok.RBRACKET
    (.arrLit tok els, st1)

/-- `Parser.parseIndexExpression`. -/
def parseIndexExpression : Nat → PState → Expr → Expr × PState
  | 0, st, _ => (.missing, st)
  | fuel + 1, st, left =>
    let tok := st.curToken
    let st1 := pnext st
    let (idx, st2) := parseExpression fuel st1 Prec.LOWEST
    match expectPeek st2 Tok.RBRACKET with
    | (false, st3) => (.missing, st3)
    | (true, st3) => (.idxE tok left idx, st3)

/-- `Parser.parseHashLiteral`: run the pair loop, then expect `}`. -/
def parseHashLiteral : Nat → PState → Expr × PState
  | 0, st => (.missing, st)
  | fuel + 1, st =>
    let tok := st.curToken
    let (pairsOpt, st1) := parseHashLoop fuel st
    match pairsOpt with
    | none => (.missing, st1)
    | some ps =>
      match expectPeek st1 Tok.RBRACE with
      | (false, st2) => (.missing, st2)
      | (true, st2) => (.hashLit tok ps, st2)

/-- The `for !p.peekTokenIs(token.RBRACE)` loop of `parseHashLiteral`;
`none` models its early `return nil` paths (missing `:` or missing `,`).
The Go code stores each pair with `hash.Pairs[key] = value`; keys are
freshly allocated nodes, so the map insertions never collide and the pair
list accumulates in insertion order. -/
def parseHashLoop : Nat → PState → Option (List (Expr × Expr)) × PState
  | 0, st => (some [], st)
  | fuel + 1, st =>
    if st.peekToken.type ≠ Tok.RBRACE then
      let st1 := pnext st
      let (k, st2) := parseExpression fuel st1 Prec.LOWEST
      match expectPeek st2 Tok.COLON with
      | (false, st3) => (none, st3)
      | (true, st3) =>
        let st4 := pnext st3
        let (v, st5) := parseExpression fuel st4 Prec.LOWEST
        if st5.peekToken.type ≠ Tok.RBRACE then
          match expectPeek st5 Tok.COMMA with
          | (false, st6) => (none, st6)
          | (true, st6) =>
            let (restP, st7) := parseHashLoop fuel st6
            (restP.map (fun r => (k, v) :: r), st7)
        else
          let (restP, st7) := parseHashLoop fuel st5
          (restP.map (fun r => (k, v) :: r), st7)
    else (some [], st)

end

/-- `Parser.ParseProgram`'s `for !p.curTokenIs(token.EOF)` loop: parse a
statement, append it unless it is nil, advance one token. -/
def parseProgramLoop : Nat → PState → List Stmt → List Stmt × PState
  | 0, st, acc => (acc, st)
  | fuel + 1, st, acc =>
    if st.curToken.type ≠ Tok.EOF then
      let (so, st1) := parseStatement fuel st
      let acc' := match so with | some s => acc ++ [s] | none => acc
      parseProgramLoop fuel (pnext st1) acc'
    else (acc, st)

/-- `parser.New` (two priming `nextToken` calls on empty slots) followed by
`ParseProgram` over a token stream. -/
def initPState (ts : List Token) : PState :=
  ⟨ts.headD eofTok, (ts.drop 1).headD eofTok, ts.drop 2, []⟩

def parseProgram (fuel : Nat) (ts : List Token) : List Stmt × PState :=
  parseProgramLoop fuel (initPState ts) []

/-- The whole front end: lex the source, then parse the token stream. -/
def fullParse (fuel : Nat) (s : List Char) : List Stmt × PState :=
  parseProgram fuel (lexAll s)

/-! ### Lexer state invariant and supporting lemmas

`readChar` establishes and maintains: `readPosition` is one past `position`,
and `ch` is the char at `position` (NUL once `position` runs off the end).
Every state the lexer ever exposes is of this shape. -/

def LexWF (l : Lexer) : Prop :=
  l.readPosition = l.position + 1 ∧
  l.ch = (if l.position < l.input.length then l.input.getD l.position chr0 else chr0)

theorem lexWF_readChar (l : Lexer) : LexWF (readChar l) := by
  refine ⟨rfl, ?_⟩
  simp only [readChar]
  split_ifs with h1 h2
  · omega
  · rfl
  · rfl
  · omega

theorem lexWF_new (s : List Char) : LexWF (lexNew s) := lexWF_readChar _

theorem input_readChar (l : Lexer) : (readChar l).input = l.input := rfl

theorem input_readIdentLoop : ∀ (f : Nat) (l : Lexer), (readIdentLoop f l).input = l.input
  | 0, _ => rfl
  | f + 1, l => by
    simp only [readIdentLoop]
    split_ifs
    · exact input_readIdentLoop f (readChar l)
    · rfl

theorem lexWF_readIdentLoop : ∀ (f : Nat) (l : Lexer), LexWF l → LexWF (readIdentLoop f l)
  | 0, _, h => h
  | f + 1, l, h => by
    simp only [readIdentLoop]
    split_ifs
    · exact lexWF_readIdentLoop f (readChar l) (lexWF_readChar l)
    · exact h

theorem isLetter_chr0 : isLetter chr0 = false := by decide

theorem ch_of_exhausted {l : Lexer} (hwf : LexWF l) (hex : l.input.length ≤ l.position) :
    l.ch = chr0 := by
  rw [hwf.2, if_neg (by omega)]

theorem pos_lt_of_ch_ne {l : Lexer} (hwf : LexWF l) (hne : l.ch ≠ chr0) :
    l.position < l.input.length := by
  by_contra hp
  exact hne (ch_of_exhausted hwf (by omega))

theorem ch_mem_input {l : Lexer} (hwf : LexWF l) (hne : l.ch ≠ chr0) : l.ch ∈ l.input := by
  have hp := pos_lt_of_ch_ne hwf hne
  rw [hwf.2, if_pos hp]
  have hg : l.input.getD l.position chr0 = l.input.get ⟨l.position, hp⟩ := by
    simp [List.getD_eq_getElem?_getD, List.getElem?_eq_getElem hp]
  rw [hg]
  exact l.input.get_mem _ _

theorem readIdentLoop_pos_ge : ∀ (f : Nat) (l : Lexer), LexWF l →
    l.position ≤ (readIdentLoop f l).position
  | 0, _, _ => le_refl _
  | f + 1, l, hwf => by
    simp only [readIdentLoop]
    split_ifs
    · have h := readIdentLoop_pos_ge f (readChar l) (lexWF_readChar l)
      have hpos : (readChar l).position = l.position + 1 := by
        simp only [readChar]; exact hwf.1
      omega
    · exact le_refl _

theorem readIdentLoop_pos_le : ∀ (f : Nat) (l : Lexer), LexWF l →
    l.position ≤ l.input.length → (readIdentLoop f l).position ≤ l.input.length
  | 0, _, _, h => h
  | f + 1, l, hwf, hle => by
    simp only [readIdentLoop]
    split_ifs with hlet
    · have hne : l.ch ≠ chr0 := by
        intro h0; rw [h0, isLetter_chr0] at hlet; exact Bool.false_ne_true hlet
      have hp := pos_lt_of_ch_ne hwf hne
      have := readIdentLoop_pos_le f (readChar l) (lexWF_readChar l)
        (by simp only [readChar]; rw [hwf.1]; omega)
      rw [input_readChar] at this
      exact this
    · exact hle

theorem readIdentLoop_completes : ∀ (f : Nat) (l : Lexer), LexWF l →
    l.input.length + 1 - l.position ≤ f → isLetter (readIdentLoop f l).ch = false
  | 0, l, hwf, hfuel => by
    have : l.ch = chr0 := ch_of_exhausted hwf (by omega)
    simp only [readIdentLoop]
    rw [this, isLetter_chr0]
  | f + 1, l, hwf, hfuel => by
    simp only [readIdentLoop]
    split_ifs with hlet
    · have hne : l.ch ≠ chr0 := by
        intro h0; rw [h0, isLetter_chr0] at hlet; exact Bool.false_ne_true hlet
      have hp := pos_lt_of_ch_ne hwf hne
      refine readIdentLoop_completes f (readChar l) (lexWF_readChar l) ?_
      have hrp : (readChar l).position = l.position + 1 := by
        simp only [readChar]; rw [hwf.1]
      rw [input_readChar, hrp]
      omega
    · simpa using hlet

/-- Past the end of input `NextToken` yields the EOF token and the state
stays exhausted. -/
theorem lexNextToken_exhausted {l : Lexer} (hwf : LexWF l)
    (hex : l.input.length ≤ l.position) : lexNextToken l = (eofTok, readChar l) := by
  have hch := ch_of_exhausted hwf hex
  simp only [lexNextToken, hch]
  rfl

set_option maxHeartbeats 1000000 in
theorem lexWF_nextToken {l : Lexer} (hwf : LexWF l) : LexWF (lexNextToken l).2 := by
  unfold lexNextToken
  split_ifs
  any_goals exact lexWF_readChar l
  exact lexWF_readIdentLoop _ _ hwf

set_option maxHeartbeats 1000000 in
theorem input_nextToken (l : Lexer) : (lexNextToken l).2.input = l.input := by
  unfold lexNextToken
  split_ifs
  any_goals rfl
  exact input_readIdentLoop _ _

/-- Once exhausted, every later call still returns the EOF token. -/
theorem tokenAt_exhausted : ∀ (k : Nat) (l : Lexer), LexWF l →
    l.input.length ≤ l.position → tokenAt l k = eofTok
  | 0, l, hwf, hex => by
    simp only [tokenAt, lexNextToken_exhausted hwf hex]
  | k + 1, l, hwf, hex => by
    simp only [tokenAt, lexNextToken_exhausted hwf hex]
    refine tokenAt_exhausted k (readChar l) (lexWF_readChar l) ?_
    have h1 : (readChar l).position = l.readPosition := rfl
    rw [input_readChar, h1, hwf.1]
    omega

/-- A char of the input is an infix of the input (as a one-char list). -/
theorem single_infix {l : Lexer} (hwf : LexWF l) (hne : l.ch ≠ chr0) :
    [l.ch] <:+: l.input := by
  obtain ⟨s, t, ht⟩ := List.append_of_mem (ch_mem_input hwf hne)
  exact ⟨s, t, by rw [ht]; simp⟩

/-- The identifier slice `input[start:position]` is an infix of the input. -/
theorem readIdentifier_literal_infix (l : Lexer) :
    (readIdentifier l).1.data <:+: l.input := by
  show ((l.input.drop l.position).take _) <:+: l.input
  exact ((List.take_prefix _ _).isInfix).trans ((List.drop_suffix _ _).isInfix)

set_option maxHeartbeats 1000000 in
/-- Every non-EOF token's literal is a contiguous substring of the input. -/
theorem token_literal_infix {l : Lexer} (hwf : LexWF l)
    (hne : (lexNextToken l).1.type ≠ Tok.EOF) :
    (lexNextToken l).1.literal.data <:+: l.input := by
  revert hne
  unfold lexNextToken
  split_ifs with h1 h2 h3 h4 h5 h6 h7 h8 h9 h10 <;> intro hne
  · exact single_infix hwf (by rw [h1]; decide)
  · exact single_infix hwf (by rw [h2]; decide)
  · exact single_infix hwf (by rw [h3]; decide)
  · exact single_infix hwf (by rw [h4]; decide)
  · exact single_infix hwf (by rw [h5]; decide)
  · exact single_infix hwf (by rw [h6]; decide)
  · exact single_infix hwf (by rw [h7]; decide)
  · exact single_infix hwf (by rw [h8]; decide)
  · exact absurd rfl hne
  · exact readIdentifier_literal_infix l
  · exact single_infix hwf h9

/-! ### Claim theorems -/

/-- C6: for every input of ASCII bytes and every reachable lexer state,
`NextToken` preserves the state invariant and the input, the identifier
loop runs to completion with in-bounds slice indices (the no-panic
content of `readIdentifier`), once the input is exhausted every further
call returns the EOF token (type EOF, empty literal) forever, and every
non-EOF token's literal is a contiguous substring of the input. -/
theorem c6_lexer_totality (input : List Char) (hascii : ∀ c ∈ input, c.toNat ≤ 127)
    (l : Lexer) (hwf : LexWF l) (hin : l.input = input) :
    LexWF (lexNextToken l).2 ∧
    (lexNextToken l).2.input = input ∧
    (isLetter l.ch = true →
      l.position ≤ (readIdentifier l).2.position ∧
      (readIdentifier l).2.position ≤ input.length ∧
      isLetter (readIdentifier l).2.ch = false) ∧
    (input.length ≤ l.position → ∀ k, tokenAt l k = eofTok) ∧
    ((lexNextToken l).1.type ≠ Tok.EOF → (lexNextToken l).1.literal.data <:+: input) := by
  subst hin
  refine ⟨lexWF_nextToken hwf, input_nextToken l, ?_, ?_, token_literal_infix hwf⟩
  · intro hlet
    have hne : l.ch ≠ chr0 := by
      intro h0; rw [h0, isLetter_chr0] at hlet; exact Bool.false_ne_true hlet
    have hp := pos_lt_of_ch_ne hwf hne
    refine ⟨readIdentLoop_pos_ge _ l hwf, ?_, ?_⟩
    · exact readIdentLoop_pos_le _ l hwf (by omega)
    · exact readIdentLoop_completes _ l hwf (le_refl _)
  · intro hex k
    exact tokenAt_exhausted k l hwf hex

/-- C6 witness: instantiation at the input `ab=` and its initial state;
the first token is the identifier run `ab`, an infix of the input. -/
theorem c6_witness :
    (lexNextToken (lexNew "ab=".data)).1.literal.data <:+: "ab=".data :=
  (c6_lexer_totality "ab=".data (by decide) (lexNew "ab=".data)
    (lexWF_new _) rfl).2.2.2.2 (by decide)

/-- C2: the identifier branch of `NextToken` does read the maximal
letter/underscore run into the literal, but it never consults
`token.LookupIdent`, so the returned token's type stays the zero value
`""` instead of the claimed keyword type or IDENT -- even though the
keyword table itself maps every keyword as the claim lists. -/
theorem c2_ident_tokens_untyped :
    (lexNextToken (lexNew "let".data)).1 = ⟨"", "let"⟩ ∧
    (lexNextToken (lexNew "foobar".data)).1 = ⟨"", "foobar"⟩ ∧
    (lexNextToken (lexNew "a_b cd".data)).1 = ⟨"", "a_b"⟩ ∧
    ("" : TokenType) ≠ Tok.LET ∧ ("" : TokenType) ≠ Tok.IDENT ∧
    lookupIdent "fn" = Tok.FUNCTION ∧ lookupIdent "let" = Tok.LET ∧
    lookupIdent "true" = Tok.TRUE ∧ lookupIdent "false" = Tok.FALSE ∧
    lookupIdent "if" = Tok.IF ∧ lookupIdent "else" = Tok.ELSE ∧
    lookupIdent "return" = Tok.RETURN ∧ lookupIdent "foobar" = Tok.IDENT := by
  decide

/-- C5: the lexer in src has no two-character lookahead: `==` lexes as two
ASSIGN tokens rather than one EQ token, and `!` (alone or before `=`)
falls through to the ILLEGAL default rather than BANG or NOT_EQ. -/
theorem c5_no_two_char_lookahead :
    lexAll "==".data = [⟨Tok.ASSIGN, "="⟩, ⟨Tok.ASSIGN, "="⟩] ∧
    lexAll "!=".data = [⟨Tok.ILLEGAL, "!"⟩, ⟨Tok.ASSIGN, "="⟩] ∧
    lexAll "!".data = [⟨Tok.ILLEGAL, "!"⟩] ∧
    Tok.ASSIGN ≠ Tok.EQ ∧ Tok.ILLEGAL ≠ Tok.NOT_EQ ∧ Tok.ILLEGAL ≠ Tok.BANG := by
  decide

/-- C9: `expectPeek` is atomic on failure -- it appends exactly the one
message `expected next token to be <t>, got <peek type> instead` and leaves
`curToken`, `peekToken` and the pending tokens untouched -- and on success
it advances one token without touching the error list. -/
theorem c9_expectPeek_atomic (st : PState) (t : TokenType) :
    (st.peekToken.type ≠ t →
      expectPeek st t =
        (false, { st with errors := st.errors ++ [peekErrMsg t st.peekToken.type] }) ∧
      (expectPeek st t).2.curToken = st.curToken ∧
      (expectPeek st t).2.peekToken = st.peekToken ∧
      (expectPeek st t).2.rest = st.rest) ∧
    (st.peekToken.type = t →
      expectPeek st t = (true, pnext st) ∧ (pnext st).errors = st.errors) := by
  constructor
  · intro h
    refine ⟨?_, ?_, ?_, ?_⟩ <;> simp [expectPeek, peekError, h]
  · intro h
    exact ⟨by simp [expectPeek, h], rfl⟩

/-- C9 witness: a LET/ASSIGN state expecting IDENT fails atomically with
the single expected-IDENT message. -/
theorem c9_witness :
    expectPeek ⟨⟨Tok.LET, "let"⟩, ⟨Tok.ASSIGN, "="⟩, [], []⟩ Tok.IDENT =
      (false, { (⟨⟨Tok.LET, "let"⟩, ⟨Tok.ASSIGN, "="⟩, [], []⟩ : PState) with
        errors := [] ++ [peekErrMsg Tok.IDENT Tok.ASSIGN] }) :=
  ((c9_expectPeek_atomic ⟨⟨Tok.LET, "let"⟩, ⟨Tok.ASSIGN, "="⟩, [], []⟩ Tok.IDENT).1
    (by decide)).1

/-- C10: `parseExpressionStatement` always yields a statement node (never
the missing sentinel), whatever the pending tokens; concretely, the input
`@` (a lone ILLEGAL byte, which has no prefix parser) still adds an
ExpressionStatement whose expression slot is the missing sentinel, after
recording the no-prefix-parser error, and that statement renders as the
empty string. -/
theorem c10_expression_statement_total (fuel : Nat) (st : PState)
    (h1 : st.curToken.type ≠ Tok.LET) (h2 : st.curToken.type ≠ Tok.RETURN) :
    (∃ e st', parseStatement (fuel + 2) st = (some (.exprS st.curToken e), st')) ∧
    fullParse 100 "@".data =
      ([.exprS ⟨Tok.ILLEGAL, "@"⟩ .missing],
        ⟨eofTok, eofTok, [], ["no prefix parse functions for ILLEGAL found"]⟩) ∧
    stmtString (.exprS ⟨Tok.ILLEGAL, "@"⟩ .missing) = "" ∧
    programString (fullParse 100 "@".data).1 = "" := by
  refine ⟨?_, rfl, rfl, rfl⟩
  rcases hp : parseExpression fuel st Prec.LOWEST with ⟨e, st1⟩
  refine ⟨e, if st1.peekToken.type = Tok.SEMICOLON then pnext st1 else st1, ?_⟩
  simp only [parseStatement, if_neg h1, if_neg h2, parseExpressionStatement, hp]

/-- C10 witness: instantiation at the token stream of the input `@`. -/
theorem c10_witness :
    ∃ e st', parseStatement 5 (initPState [⟨Tok.ILLEGAL, "@"⟩]) =
      (some (.exprS ⟨Tok.ILLEGAL, "@"⟩ e), st') :=
  (c10_expression_statement_total 3 (initPState [⟨Tok.ILLEGAL, "@"⟩])
    (by decide) (by decide)).1

/-- C1: a let statement whose `=` expectation fails is dropped: it comes
back from `parseStatement` as the missing (nil) node with exactly the
expected-`=` error recorded, the top-level loop appends nothing for it,
and on the token stream of `let x 5;` the returned program holds only the
later expression statement `5`, no partially-initialised let node. -/
theorem c1_let_eq_failure_dropped (fuel : Nat) (st : PState)
    (hlet : st.curToken.type = Tok.LET) (hid : st.peekToken.type = Tok.IDENT)
    (hne : (pnext st).peekToken.type ≠ Tok.ASSIGN) :
    (parseStatement (fuel + 2) st = (none, peekError (pnext st) Tok.ASSIGN) ∧
     (peekError (pnext st) Tok.ASSIGN).errors =
       st.errors ++ [peekErrMsg Tok.ASSIGN (pnext st).peekToken.type]) ∧
    (∀ acc, (parseProgramLoop (fuel + 3) st acc).1 =
       (parseProgramLoop (fuel + 2) (pnext (peekError (pnext st) Tok.ASSIGN)) acc).1) ∧
    parseProgram 100 [⟨Tok.LET, "let"⟩, ⟨Tok.IDENT, "x"⟩, ⟨Tok.INT, "5"⟩, ⟨Tok.SEMICOLON, ";"⟩] =
      ([.exprS ⟨Tok.INT, "5"⟩ (.intLit ⟨Tok.INT, "5"⟩ 5)],
        ⟨eofTok, eofTok, [], ["expected next token to be =, got INT instead"]⟩) := by
  have hcur : ¬ st.curToken.type = Tok.EOF := by rw [hlet]; decide
  have he1 : expectPeek st Tok.IDENT = (true, pnext st) := by
    simp [expectPeek, hid]
  have he2 : expectPeek (pnext st) Tok.ASSIGN = (false, peekError (pnext st) Tok.ASSIGN) := by
    simp [expectPeek, hne]
  have hps : parseStatement (fuel + 2) st = (none, peekError (pnext st) Tok.ASSIGN) := by
    simp [parseStatement, hlet, parseLetStatement, he1, he2]
  refine ⟨⟨hps, rfl⟩, ?_, rfl⟩
  intro acc
  simp [parseProgramLoop, hcur, hps]

/-- C1 witness: instantiation at the initial parser state of the token
stream of `let x 5;`. -/
theorem c1_witness :
    parseStatement 52 (initPState [⟨Tok.LET, "let"⟩, ⟨Tok.IDENT, "x"⟩, ⟨Tok.INT, "5"⟩,
        ⟨Tok.SEMICOLON, ";"⟩]) =
      (none, peekError (pnext (initPState [⟨Tok.LET, "let"⟩, ⟨Tok.IDENT, "x"⟩,
        ⟨Tok.INT, "5"⟩, ⟨Tok.SEMICOLON, ";"⟩])) Tok.ASSIGN) :=
  (c1_let_eq_failure_dropped 50 _ rfl rfl (by decide)).1.1

/-- C7: binary infix operators are left-associative: for each of the eight
binary operators, the token stream of `a op b op c` (any identifier
literals) parses, without errors, to the nesting `((a op b) op c)`. -/
theorem c7_left_associative (op a b c : String)
    (hop : op ∈ ["+", "-", "*", "/", "==", "!=", "<", ">"]) :
    parseProgram 100
        [⟨Tok.IDENT, a⟩, ⟨op, op⟩, ⟨Tok.IDENT, b⟩, ⟨op, op⟩, ⟨Tok.IDENT, c⟩] =
      ([.exprS ⟨Tok.IDENT, a⟩
          (.infE ⟨op, op⟩
            (.infE ⟨op, op⟩ (.identE ⟨Tok.IDENT, a⟩ a) op (.identE ⟨Tok.IDENT, b⟩ b))
            op (.identE ⟨Tok.IDENT, c⟩ c))],
        ⟨eofTok, eofTok, [], []⟩) := by
  fin_cases hop <;> rfl

/-- C7 witness: the token stream of `a - b - c` parses to ((a - b) - c). -/
theorem c7_witness :
    parseProgram 100
        [⟨Tok.IDENT, "a"⟩, ⟨"-", "-"⟩, ⟨Tok.IDENT, "b"⟩, ⟨"-", "-"⟩, ⟨Tok.IDENT, "c"⟩] =
      ([.exprS ⟨Tok.IDENT, "a"⟩
          (.infE ⟨"-", "-"⟩
            (.infE ⟨"-", "-"⟩ (.identE ⟨Tok.IDENT, "a"⟩ "a") "-" (.identE ⟨Tok.IDENT, "b"⟩ "b"))
            "-" (.identE ⟨Tok.IDENT, "c"⟩ "c"))],
        ⟨eofTok, eofTok, [], []⟩) :=
  c7_left_associative "-" "a" "b" "c" (by decide)

/-! ### C3/C4/C8: concrete front-end scenarios -/

/-- The hash pair ("one", 1) as the parser would build it from STRING and
INT tokens. -/
def c3PairOne : Expr × Expr :=
  (.strLit ⟨Tok.STRING, "one"⟩ "one", .intLit ⟨Tok.INT, "1"⟩ 1)

def c3PairTwo : Expr × Expr :=
  (.strLit ⟨Tok.STRING, "two"⟩ "two", .intLit ⟨Tok.INT, "2"⟩ 2)

def c3PairThree : Expr × Expr :=
  (.strLit ⟨Tok.STRING, "three"⟩ "three", .intLit ⟨Tok.INT, "3"⟩ 3)

/-- The three hash pairs in insertion order. -/
def c3Pairs : List (Expr × Expr) := [c3PairOne, c3PairTwo, c3PairThree]

/-- All six orderings in which a map iteration could visit the three
pairs (Go map iteration order is unspecified). -/
def c3Orderings : List (List (Expr × Expr)) :=
  [[c3PairOne, c3PairTwo, c3PairThree], [c3PairOne, c3PairThree, c3PairTwo],
   [c3PairTwo, c3PairOne, c3PairThree], [c3PairTwo, c3PairThree, c3PairOne],
   [c3PairThree, c3PairOne, c3PairTwo], [c3PairThree, c3PairTwo, c3PairOne]]

/-- The token stream the claim's input would have to produce for
`parseHashLiteral` (STRING/INT/COLON/COMMA tokens). -/
def c3TokenStream : List Token :=
  [⟨Tok.LBRACE, "\x7b"⟩,
   ⟨Tok.STRING, "one"⟩, ⟨Tok.COLON, ":"⟩, ⟨Tok.INT, "1"⟩, ⟨Tok.COMMA, ","⟩,
   ⟨Tok.STRING, "two"⟩, ⟨Tok.COLON, ":"⟩, ⟨Tok.INT, "2"⟩, ⟨Tok.COMMA, ","⟩,
   ⟨Tok.STRING, "three"⟩, ⟨Tok.COLON, ":"⟩, ⟨Tok.INT, "3"⟩, ⟨Tok.RBRACE, "\x7d"⟩]

/-- The claim's source text. -/
def c3Input : List Char := "\x7b\"one\": 1, \"two\": 2, \"three\": 3\x7d".data

/-- The tokens the lexer in src actually produces from `c3Input`: the
quotes, colons, blanks and digits all come out ILLEGAL, and the words come
out with the empty token type. -/
def c3LexedTokens : List Token :=
  [⟨Tok.LBRACE, "\x7b"⟩, ⟨Tok.ILLEGAL, "\""⟩, ⟨"", "one"⟩, ⟨Tok.ILLEGAL, "\""⟩,
   ⟨Tok.ILLEGAL, ":"⟩, ⟨Tok.ILLEGAL, " "⟩, ⟨Tok.ILLEGAL, "1"⟩, ⟨Tok.COMMA, ","⟩,
   ⟨Tok.ILLEGAL, " "⟩, ⟨Tok.ILLEGAL, "\""⟩, ⟨"", "two"⟩, ⟨Tok.ILLEGAL, "\""⟩,
   ⟨Tok.ILLEGAL, ":"⟩, ⟨Tok.ILLEGAL, " "⟩, ⟨Tok.ILLEGAL, "2"⟩, ⟨Tok.COMMA, ","⟩,
   ⟨Tok.ILLEGAL, " "⟩, ⟨Tok.ILLEGAL, "\""⟩, ⟨"", "three"⟩, ⟨Tok.ILLEGAL, "\""⟩,
   ⟨Tok.ILLEGAL, ":"⟩, ⟨Tok.ILLEGAL, " "⟩, ⟨Tok.ILLEGAL, "3"⟩, ⟨Tok.RBRACE, "\x7d"⟩]

set_option maxHeartbeats 800000 in
/-- C3: the claimed output is unreachable.  `HashLiteral.String` never
writes the closing brace, so no iteration order of the three pairs renders
as `{one:1, two:2, three:3}`; insertion order gives that string minus the
final brace.  `parseHashLiteral` itself does collect the pairs in insertion
order (the hash's token stream parses without errors and prints the pairs
in insertion order, sans closing brace), but the lexer in src cannot even
produce that token stream from the claim's input: it lexes the quotes,
colons and digits to ILLEGAL tokens and the words to empty-typed tokens,
never a STRING, INT or COLON token. -/
theorem c3_hash_scenario_fails :
    (∀ ps ∈ c3Orderings,
       exprString (.hashLit ⟨Tok.LBRACE, "\x7b"⟩ ps) ≠ "\x7bone:1, two:2, three:3\x7d") ∧
    exprString (.hashLit ⟨Tok.LBRACE, "\x7b"⟩ c3Pairs) = "\x7bone:1, two:2, three:3" ∧
    (parseProgram 100 c3TokenStream).2.errors = [] ∧
    programString (parseProgram 100 c3TokenStream).1 = "\x7bone:1, two:2, three:3" ∧
    lexAll c3Input = c3LexedTokens ∧
    (c3LexedTokens.all (fun t =>
      !(t.type == Tok.STRING) && !(t.type == Tok.INT) && !(t.type == Tok.COLON))) = true := by
  refine ⟨?_, by decide, by decide, by decide, by decide, by decide⟩
  intro ps hps
  fin_cases hps <;> decide

/-- C3 witness: even in insertion order the rendering misses the closing
brace, so it differs from the claimed output. -/
theorem c3_witness :
    exprString (.hashLit ⟨Tok.LBRACE, "\x7b"⟩ c3Pairs) ≠ "\x7bone:1, two:2, three:3\x7d" :=
  c3_hash_scenario_fails.1 c3Pairs (List.mem_cons_self _ _)

/-- C4 counterexample: the program parsed (error-free) from `{}` prints
`{`, but re-lexing and re-parsing `{` yields a program printing the empty
string, so print∘parse is not idempotent on its own output. -/
theorem c4_counterexample :
    (fullParse 100 "\x7b\x7d".data).2.errors = [] ∧
    programString (fullParse 100 "\x7b\x7d".data).1 = "\x7b" ∧
    programString (fullParse 100 (programString (fullParse 100 "\x7b\x7d".data).1).data).1 = "" ∧
    ("" : String) ≠ "\x7b" := by
  exact ⟨rfl, rfl, rfl, by decide⟩

/-- C4 amended: idempotence of print∘parse holds for the empty program but
fails in general: some error-free parse (the one of `{}`) prints to a
string whose re-parse prints differently. -/
theorem c4_not_idempotent :
    ((fullParse 100 ([] : List Char)).2.errors = [] ∧
     programString (fullParse 100 ([] : List Char)).1 = "" ∧
     programString (fullParse 100 (programString (fullParse 100 ([] : List Char)).1).data).1 =
       programString (fullParse 100 ([] : List Char)).1) ∧
    ∃ s : List Char,
      (fullParse 100 s).2.errors = [] ∧
      programString (fullParse 100 (programString (fullParse 100 s).1).data).1 ≠
        programString (fullParse 100 s).1 := by
  exact ⟨⟨rfl, rfl, rfl⟩, ⟨"\x7b\x7d".data, rfl, by decide⟩⟩

/-- C8 counterexample: on `let = 5;` the pipeline's error list is not the
single expected-IDENT message the claim states. -/
theorem c8_counterexample :
    (fullParse 100 "let = 5;".data).2.errors ≠
      ["expected next token to be IDENT, got = instead"] := by
  decide

/-- C8 amended: on `let = 5;` the pipeline records five errors, all of the
no-prefix-parser form (for the empty token type of the unclassified word
`let`, the ILLEGAL blanks and digit, and `=`); the expected-IDENT message
never occurs, because the lexer never classifies `let` as a LET token. -/
theorem c8_actual_errors :
    (fullParse 100 "let = 5;".data).2.errors =
      ["no prefix parse functions for  found",
       "no prefix parse functions for ILLEGAL found",
       "no prefix parse functions for = found",
       "no prefix parse functions for ILLEGAL found",
       "no prefix parse functions for ILLEGAL found"] ∧
    ((fullParse 100 "let = 5;".data).2.errors.contains
      "expected next token to be IDENT, got = instead") = false := by
  exact ⟨rfl, by decide⟩

end Monkey
